import Mathlib

/-!
Verification development for the brightspot cookie module (src/cookie.js).

Modeling conventions:
* JavaScript strings are modeled as lists of Unicode code points (`JSStr`).
* JavaScript `null`/`undefined` arguments are modeled as `Option` values.
* Code that can throw is modeled with `Except JsError`; the platform
  builtins `encodeURIComponent` / `decodeURIComponent` are modeled after
  the ECMAScript specification (percent-encoding of the UTF-8 bytes of
  each code point; `decodeURIComponent` fails on malformed input).
* The mutable scrambler registry (`cookie.scramblers`) is passed
  explicitly as a function `Registry`; `builtinScramblers` is its initial
  state with the two shipped algorithms. Inside the accessor, however,
  the source reads the registry through `self`: line 296 (`self =
  cookie;`) assigns the local variable `cookie` declared on line 279,
  which shadows the outer function and is still undefined at that point,
  so `self` is `undefined` in every call and each `self.scramblers`
  dereference (lines 314 and 425) raises a `TypeError`. The scramble
  branches of the accessor are modeled accordingly; the registry
  parameters of the accessor model module state that those branches can
  never actually reach.
* The regular expressions of the source are translated by hand; in
  particular `.` in `/^\[(.+?)\]/` matches every character except the
  JavaScript line terminators (LF, CR, U+2028, U+2029), and the match is
  non-greedy.
-/

deriving instance DecidableEq for Except

/-- A JavaScript string, as a list of Unicode code points. -/
abbrev JSStr := List Char

/-- Errors a JavaScript call can raise: `URIError` from the percent codec,
`TypeError` from property access on `undefined`/`null`, or an explicitly
thrown string value. -/
inductive JsError
  | uriError
  | typeError
  | thrown : JSStr → JsError
deriving DecidableEq

/-- Test for the character class `[a-z]` with the `i` flag (ASCII letters,
both cases), used by `rot13` in src/cookie.js line 87. -/
def asciiLetter (c : Char) : Bool :=
  decide ((97 ≤ c.toNat ∧ c.toNat ≤ 122) ∨ (65 ≤ c.toNat ∧ c.toNat ≤ 90))

/-- The replacement callback of `rot13` (src/cookie.js lines 88-89):
`n > 109 || n < 97 && n > 77 ? n - 13 : n + 13` on the char code. -/
def rot13Shift (c : Char) : Char :=
  let n := c.toNat
  Char.ofNat (if 109 < n ∨ (n < 97 ∧ 77 < n) then n - 13 else n + 13)

/-- Effect of the `rot13` replacement on one character: matched letters
are shifted, anything else passes through unchanged. -/
def rot13Step (c : Char) : Char :=
  if asciiLetter c then rot13Shift c else c

/-- Core of `rot13` on an actual string: `replace(/[a-z]/ig, ...)` is a
character-wise map (each match is a single character). -/
def rot13L (s : JSStr) : JSStr :=
  s.map rot13Step

/-- The source `rot13` function (src/cookie.js lines 86-91), including the
`(str || '')` null guard: a `null`/`undefined` (or empty) argument is
treated as the empty string. -/
def rot13JS (s : Option JSStr) : JSStr :=
  rot13L (s.getD [])

/-- Test for the character class `[0-9]` (ASCII digits), used by `rot5`
in src/cookie.js line 102. -/
def asciiDigit (c : Char) : Bool :=
  decide (48 ≤ c.toNat ∧ c.toNat ≤ 57)

/-- The `rot5matrix` lookup together with the `hasOwnProperty` fallback of
`rot5replace` (src/cookie.js lines 118-120 and 163-174). -/
def rot5Matrix (c : Char) : Char :=
  if c = '0' then '5'
  else if c = '1' then '6'
  else if c = '2' then '7'
  else if c = '3' then '8'
  else if c = '4' then '9'
  else if c = '5' then '0'
  else if c = '6' then '1'
  else if c = '7' then '2'
  else if c = '8' then '3'
  else if c = '9' then '4'
  else c

/-- Effect of the `rot5` replacement on one character: matched digits go
through the matrix, anything else passes through unchanged. -/
def rot5Step (c : Char) : Char :=
  if asciiDigit c then rot5Matrix c else c

/-- Core of `rot5` on an actual string: `replace(/[0-9]/g, rot5replace)`
is a character-wise map. -/
def rot5L (s : JSStr) : JSStr :=
  s.map rot5Step

/-- The source `rot5` function (src/cookie.js lines 101-103). It calls
`str.replace(...)` with no null guard, so a `null`/`undefined` argument
raises a `TypeError`. -/
def rot5JS (s : Option JSStr) : Except JsError JSStr :=
  match s with
  | none => Except.error JsError.typeError
  | some t => Except.ok (rot5L t)

/-- JavaScript line terminators, the characters NOT matched by `.` in a
regular expression without the `s` flag. -/
def lineTerminator (c : Char) : Bool :=
  decide (c.toNat = 10 ∨ c.toNat = 13 ∨ c.toNat = 8232 ∨ c.toNat = 8233)

/-- Matching of `(.+?)\]` against the part of the string after the leading
`[`: the shortest non-empty run of non-line-terminator characters that is
followed by `]`. Returns the captured run and the remainder after `]`. -/
def tagScan : JSStr → Option (JSStr × JSStr)
  | [] => none
  | c :: rest =>
    if lineTerminator c then none
    else
      match rest with
      | [] => none
      | c2 :: rest2 =>
        if c2 = ']' then some ([c], rest2)
        else (tagScan (c2 :: rest2)).map fun pr => (c :: pr.1, pr.2)

/-- Matching of the anchored regex `/^\[(.+?)\]/` against a string:
requires a leading `[`, then defers to `tagScan`. Returns the capture and
the part of the string after the whole match. -/
def tagMatch (s : JSStr) : Option (JSStr × JSStr) :=
  match s with
  | '[' :: rest => tagScan rest
  | _ => none

/-- The source `scramblePrefixGet` (src/cookie.js lines 19-37): the first
capture of `/^\[(.+?)\]/`, with the `match[1] || ''` fallback, or the
empty string when there is no match. -/
def scramblePrefixGet (s : JSStr) : JSStr :=
  match tagMatch s with
  | some pr => if pr.1.isEmpty then [] else pr.1
  | none => []

/-- The source `scramblePrefixAdd` (src/cookie.js lines 55-57):
`'[' + prefix + ']' + value`. -/
def scramblePrefixAdd (pfx value : JSStr) : JSStr :=
  ('[' :: pfx) ++ (']' :: value)

/-- The source `scramblePrefixRemove` (src/cookie.js lines 74-76):
`s.replace(/^\[(.+?)\]/, '')`, removing the first match if any. -/
def scramblePrefixRemove (s : JSStr) : JSStr :=
  match tagMatch s with
  | some pr => pr.2
  | none => s

/-- The character class `(\s| )` of the `rtrim` regex
(src/cookie.js line 184): JavaScript whitespace. -/
def trimChar (c : Char) : Bool :=
  decide (c.toNat = 32 ∨ (9 ≤ c.toNat ∧ c.toNat ≤ 13) ∨ c.toNat = 160 ∨
    c.toNat = 5760 ∨ (8192 ≤ c.toNat ∧ c.toNat ≤ 8202) ∨ c.toNat = 8232 ∨
    c.toNat = 8233 ∨ c.toNat = 8239 ∨ c.toNat = 8287 ∨ c.toNat = 12288 ∨
    c.toNat = 65279)

/-- The source `trim` (src/cookie.js lines 196-198): removes the maximal
leading and trailing runs of whitespace. -/
def trim (s : JSStr) : JSStr :=
  (((s.dropWhile trimChar).reverse).dropWhile trimChar).reverse

/-- JavaScript `document.cookie.split(';')` (src/cookie.js line 399):
splits at every `;`, keeping empty pieces. -/
def splitSemi : JSStr → List JSStr
  | [] => [[]]
  | c :: rest =>
    match splitSemi rest with
    | [] => [[c]]
    | h :: t => if c = ';' then [] :: h :: t else (c :: h) :: t

/-- The unreserved characters of `encodeURIComponent` (ECMAScript):
ASCII alphanumerics and `- _ . ! ~ * ' ( )`. These are emitted literally;
every other code point is percent-encoded. -/
def uriUnreserved (c : Char) : Bool :=
  decide ((65 ≤ c.toNat ∧ c.toNat ≤ 90) ∨ (97 ≤ c.toNat ∧ c.toNat ≤ 122) ∨
    (48 ≤ c.toNat ∧ c.toNat ≤ 57) ∨ c.toNat = 45 ∨ c.toNat = 95 ∨
    c.toNat = 46 ∨ c.toNat = 33 ∨ c.toNat = 126 ∨ c.toNat = 42 ∨
    c.toNat = 39 ∨ c.toNat = 40 ∨ c.toNat = 41)

/-- UTF-8 encoding of a code point, as its list of bytes. -/
def utf8Bytes (n : Nat) : List Nat :=
  if n < 128 then [n]
  else if n < 2048 then [192 + n / 64, 128 + n % 64]
  else if n < 65536 then [224 + n / 4096, 128 + (n / 64) % 64, 128 + n % 64]
  else [240 + n / 262144, 128 + (n / 4096) % 64, 128 + (n / 64) % 64, 128 + n % 64]

/-- Uppercase hexadecimal digit for a nibble, as produced by the
percent-encoding builtins. -/
def hexDigitChar (n : Nat) : Char :=
  Char.ofNat (if n < 10 then 48 + n else 55 + n)

/-- A percent escape `%XY` for one byte. -/
def pctByte (b : Nat) : JSStr :=
  '%' :: [hexDigitChar (b / 16), hexDigitChar (b % 16)]

/-- Per-code-point output of `encodeURIComponent`. -/
def encodeURIComponentChar (c : Char) : JSStr :=
  if uriUnreserved c then [c] else (utf8Bytes c.toNat).flatMap pctByte

/-- Model of the `encodeURIComponent` builtin on a whole string. -/
def encodeURIComponentL (s : JSStr) : JSStr :=
  s.flatMap encodeURIComponentChar

/-- The global replacement `.replace(/%7B|%7D|%3A|%5B|%5D/g, ...)` of
src/cookie.js lines 131-144, whose replacement function percent-decodes
the matched escape: a left-to-right scan that rewrites exactly the five
listed escapes to their literal characters, advancing one character past
an unmatched position (the regex alternatives are case sensitive). -/
def restoreAllowed : JSStr → JSStr
  | [] => []
  | c :: rest =>
    if c = '%' then
      match rest with
      | c1 :: c2 :: rest2 =>
        if c1 = '7' ∧ c2 = 'B' then '{' :: restoreAllowed rest2
        else if c1 = '7' ∧ c2 = 'D' then '}' :: restoreAllowed rest2
        else if c1 = '3' ∧ c2 = 'A' then ':' :: restoreAllowed rest2
        else if c1 = '5' ∧ c2 = 'B' then '[' :: restoreAllowed rest2
        else if c1 = '5' ∧ c2 = 'D' then ']' :: restoreAllowed rest2
        else c :: restoreAllowed (c1 :: c2 :: rest2)
      | other => c :: restoreAllowed other
    else c :: restoreAllowed rest

/-- The source `encodeValue` (src/cookie.js lines 129-146):
percent-encode, then restore the five allow-listed escapes to literal
`{ } : [ ]`. -/
def encodeValue (value : JSStr) : JSStr :=
  restoreAllowed (encodeURIComponentL value)

/-- Value of a hexadecimal digit character (both cases accepted by the
decoding builtin), or `none`. -/
def hexVal (c : Char) : Option Nat :=
  if 48 ≤ c.toNat ∧ c.toNat ≤ 57 then some (c.toNat - 48)
  else if 65 ≤ c.toNat ∧ c.toNat ≤ 70 then some (c.toNat - 55)
  else if 97 ≤ c.toNat ∧ c.toNat ≤ 102 then some (c.toNat - 87)
  else none

/-- One element of a percent-encoded string: either a literal character
or the byte of a `%XY` escape. -/
inductive PctTok
  | raw : Char → PctTok
  | byte : Nat → PctTok
deriving DecidableEq

/-- First phase of `decodeURIComponent`: read every `%XY` escape as a
byte (failing when a `%` is not followed by two hex digits) and keep
every other character as a literal. -/
def pctTokenize : JSStr → Option (List PctTok)
  | [] => some []
  | c :: rest =>
    if c = '%' then
      match rest with
      | c1 :: c2 :: rest2 =>
        match hexVal c1, hexVal c2 with
        | some h, some l => (pctTokenize rest2).map fun ts => PctTok.byte (16 * h + l) :: ts
        | _, _ => none
      | _ => none
    else (pctTokenize rest).map fun ts => PctTok.raw c :: ts

/-- A UTF-8 continuation byte. -/
def contByte (b : Nat) : Bool :=
  decide (128 ≤ b ∧ b ≤ 191)

/-- Continuation byte of a UTF-8 sequence at index `i` of the token
stream: present only when that token is an escape byte in the
continuation range 128-191. -/
def contAt (rest : List PctTok) (i : Nat) : Option Nat :=
  match rest[i]? with
  | some (PctTok.byte b) => if contByte b then some b else none
  | _ => none

/-- Decoding of one multi-byte UTF-8 sequence of `decodeURIComponent`:
given a lead byte `b` (128 or more) and the following tokens, checks that
`b` is a valid lead, that the right number of continuation escape bytes
follows, and that the combined code point is neither overlong nor a
surrogate nor beyond U+10FFFF. Returns the code point and the number of
continuation tokens consumed; `none` is a `URIError`. -/
def decodeMulti (b : Nat) (rest : List PctTok) : Option (Nat × Nat) :=
  if b < 192 then none
  else if b < 224 then
    match contAt rest 0 with
    | some b2 =>
      let v := (b - 192) * 64 + (b2 - 128)
      if v < 128 then none else some (v, 1)
    | none => none
  else if b < 240 then
    match contAt rest 0, contAt rest 1 with
    | some b2, some b3 =>
      let v := (b - 224) * 4096 + (b2 - 128) * 64 + (b3 - 128)
      if v < 2048 ∨ (55296 ≤ v ∧ v ≤ 57343) then none else some (v, 2)
    | _, _ => none
  else if b < 248 then
    match contAt rest 0, contAt rest 1, contAt rest 2 with
    | some b2, some b3, some b4 =>
      let v := (b - 240) * 262144 + (b2 - 128) * 4096 + (b3 - 128) * 64 + (b4 - 128)
      if v < 65536 ∨ 1114111 < v then none else some (v, 3)
    | _, _, _ => none
  else none

/-- Second phase of `decodeURIComponent`, with explicit fuel (one unit
per leading token, enough because every step consumes at least one
token): literal characters pass through; an escape byte below 128 is its
own code point; a higher escape byte must lead a valid UTF-8 sequence
(checked by `decodeMulti`), whose continuation tokens are then skipped.
Any violation is a `URIError`. -/
def decodeTokensF : Nat → List PctTok → Option JSStr
  | _, [] => some []
  | 0, _ :: _ => none
  | fuel + 1, PctTok.raw c :: rest => (decodeTokensF fuel rest).map fun s => c :: s
  | fuel + 1, PctTok.byte b :: rest =>
    if b < 128 then (decodeTokensF fuel rest).map fun s => Char.ofNat b :: s
    else
      match decodeMulti b rest with
      | some pr => (decodeTokensF fuel (rest.drop pr.2)).map fun s => Char.ofNat pr.1 :: s
      | none => none

/-- Second phase of `decodeURIComponent` on a whole token stream. -/
def decodeTokens (ts : List PctTok) : Option JSStr :=
  decodeTokensF ts.length ts

/-- Model of the `decodeURIComponent` builtin; `none` models a thrown
`URIError`. -/
def decodeURIComponentL (s : JSStr) : Option JSStr :=
  match pctTokenize s with
  | some ts => decodeTokens ts
  | none => none

/-- The source `decodeValue` (src/cookie.js lines 152-154): a full
percent-decode. -/
def decodeValue (value : JSStr) : Option JSStr :=
  decodeURIComponentL value

/-- One entry of the scramble plug-in registry (src/cookie.js lines
634-663): an encode and a decode function. -/
structure Scrambler where
  encode : JSStr → JSStr
  decode : JSStr → JSStr

/-- The registry `cookie.scramblers`, as a lookup function from algorithm
name to entry. -/
abbrev Registry := JSStr → Option Scrambler

/-- The initial state of `cookie.scramblers` (src/cookie.js lines
634-663): `rot13` with encode = decode = letter rotation, and `rot13n`
with encode = decode = `rot5(rot13(text))`. -/
def builtinScramblers : Registry := fun name =>
  if name = ("rot13").data then
    some (Scrambler.mk (fun text => rot13L text) (fun text => rot13L text))
  else if name = ("rot13n").data then
    some (Scrambler.mk (fun text => rot5L (rot13L text)) (fun text => rot5L (rot13L text)))
  else none

/-- The `cookie.scramblerDefault` name (src/cookie.js line 669). -/
def scramblerDefault : JSStr :=
  ("rot13n").data

/-- Value of the `options.scramble` option: JavaScript boolean or string. -/
inductive ScrambleOpt
  | boolOpt : Bool → ScrambleOpt
  | strOpt : JSStr → ScrambleOpt
deriving DecidableEq

/-- JavaScript truthiness of `options.scramble` (absent, `false`, and the
empty string are falsy). -/
def scrambleTruthy : Option ScrambleOpt → Bool
  | none => false
  | some (ScrambleOpt.boolOpt b) => b
  | some (ScrambleOpt.strOpt s) => !s.isEmpty

/-- The cookie location loop of read mode (src/cookie.js lines 396-411):
split `document.cookie` at `;`, trim each part, and return the text after
`name=` of the first part that starts with `name=`. -/
def findCookie (doc name : JSStr) : Option JSStr :=
  if doc.isEmpty then none
  else
    (splitSemi doc).findSome? fun part =>
      let ck := trim part
      if ck.take (name.length + 1) = name ++ ['='] then
        some (ck.drop (name.length + 1))
      else none

/-- Read mode of the cookie accessor (src/cookie.js lines 390-446):
locate the entry and transport-decode it. When `options.scramble` is
truthy, lines 416-422 compute the prefix tag (pure, no observable
effect) and line 425 then reads `self.scramblers`; since `self` holds
the undefined shadowing local `cookie` (lines 279 and 296), that
dereference raises a `TypeError`, and the registry check, the
`Cannot unscramble cookie with prefix` throw, the tag strip and the
decode call (lines 424-436) are unreachable. The registry parameter
`reg` models the module's `cookie.scramblers` state, which this path can
never consult. `none` in the result is the JavaScript `null` for a
missing cookie. -/
def cookieRead (reg : Registry) (doc name : JSStr) (scramble : Option ScrambleOpt) :
    Except JsError (Option JSStr) :=
  match findCookie doc name with
  | none => Except.ok none
  | some raw =>
    match decodeValue raw with
    | none => Except.error JsError.uriError
    | some cv =>
      if scrambleTruthy scramble then
        Except.error JsError.typeError
      else Except.ok (some cv)

/-- The `options.expires` value: a number of days or a `Date` object
(modeled by its epoch milliseconds). -/
inductive ExpiresOpt
  | num : Int → ExpiresOpt
  | date : Int → ExpiresOpt
deriving DecidableEq

/-- The options object of the cookie accessor. -/
structure CookieOptions where
  expires : Option ExpiresOpt
  path : Option JSStr
  domain : Option JSStr
  secure : Bool
  scramble : Option ScrambleOpt

/-- The `expires` attribute of write mode (src/cookie.js lines 330-346):
a truthy number is days from now, a `Date` is used as is. `renderUTC`
models `Date.prototype.toUTCString` on an epoch-millisecond instant and
`now` models the current clock. -/
def expiresAttr (now : Int) (renderUTC : Int → JSStr) (e : Option ExpiresOpt) : JSStr :=
  match e with
  | none => []
  | some (ExpiresOpt.num n) =>
    if n = 0 then []
    else ("; expires=").data ++ renderUTC (now + n * 86400000)
  | some (ExpiresOpt.date t) => ("; expires=").data ++ renderUTC t

/-- The `path` attribute of write mode (src/cookie.js lines 370-384):
absent means `/`, the empty string means no attribute. -/
def pathAttr (p : Option JSStr) : JSStr :=
  match p with
  | none => ("; path=/").data
  | some q => if q.isEmpty then [] else ("; path=").data ++ q

/-- The `domain` attribute of write mode (src/cookie.js line 348); an
empty string is falsy and yields no attribute. -/
def domainAttr (d : Option JSStr) : JSStr :=
  match d with
  | none => []
  | some q => if q.isEmpty then [] else ("; domain=").data ++ q

/-- The `secure` attribute of write mode (src/cookie.js line 349). -/
def secureAttr (b : Bool) : JSStr :=
  if b then ("; secure").data else []

/-- Outcome of write mode: the serialized entry assigned to
`document.cookie` and the value returned to the caller (post-scramble,
pre-transport-encoding). -/
structure SetResult where
  docWrite : JSStr
  returned : JSStr
deriving DecidableEq

/-- Write mode of the cookie accessor (src/cookie.js lines 300-388):
`null` deletes (empty value, expiry forced to -1 days). A truthy
`options.scramble` reaches line 314, which reads `self.scramblers`;
since `self` holds the undefined shadowing local `cookie` (lines 279
and 296), that dereference raises a `TypeError`, and the default-name
substitution, the encode call and the tagging (lines 314-326) are
unreachable, as are the attribute assembly and the `document.cookie`
assignment of that call. With scrambling falsy or absent, the entry is
assembled and assigned to `document.cookie`, and the value is returned.
The `reg` and `defaultName` parameters model the module's
`cookie.scramblers` and `cookie.scramblerDefault` state, which this
path can never consult. -/
def cookieWrite (reg : Registry) (defaultName : JSStr) (now : Int)
    (renderUTC : Int → JSStr) (name : JSStr) (value : Option JSStr)
    (options : CookieOptions) : Except JsError SetResult :=
  let v0 : JSStr := match value with | none => [] | some v => v
  let opts : CookieOptions :=
    match value with
    | none =>
      CookieOptions.mk (some (ExpiresOpt.num (-1))) options.path options.domain
        options.secure options.scramble
    | some _ => options
  let scrambled : Except JsError JSStr :=
    match opts.scramble with
    | some o =>
      if scrambleTruthy (some o) then
        Except.error JsError.typeError
      else Except.ok v0
    | none => Except.ok v0
  match scrambled with
  | Except.error e => Except.error e
  | Except.ok v1 =>
    Except.ok (SetResult.mk
      (name ++ ['='] ++ encodeValue v1 ++ expiresAttr now renderUTC opts.expires ++
        pathAttr opts.path ++ domainAttr opts.domain ++ secureAttr opts.secure)
      v1)

/-- A JavaScript value as produced by `JSON.parse`. -/
inductive JsValue
  | nullV
  | boolV : Bool → JsValue
  | numV : Int → JsValue
  | strV : JSStr → JsValue
  | arrV : List JsValue → JsValue
  | objV : List (JSStr × JsValue) → JsValue

/-- The public `cookie.get` (src/cookie.js lines 473-476): read, and turn
the `null` of a missing cookie into the empty string. -/
def Cookie.get (reg : Registry) (doc name : JSStr) (scramble : Option ScrambleOpt) :
    Except JsError JSStr :=
  match cookieRead reg doc name scramble with
  | Except.error e => Except.error e
  | Except.ok none => Except.ok []
  | Except.ok (some v) => Except.ok v

/-- The public `cookie.getJson` (src/cookie.js lines 520-538): read;
a missing cookie gives the empty object, and so does a value on which
`JSON.parse` throws. The platform `JSON.parse` is passed explicitly;
`none` models a parse error. -/
def Cookie.getJson (parse : JSStr → Option JsValue) (reg : Registry)
    (doc name : JSStr) (scramble : Option ScrambleOpt) : Except JsError JsValue :=
  match cookieRead reg doc name scramble with
  | Except.error e => Except.error e
  | Except.ok none => Except.ok (JsValue.objV [])
  | Except.ok (some v) =>
    match parse v with
    | some j => Except.ok j
    | none => Except.ok (JsValue.objV [])

/-- The public `cookie.exists` (src/cookie.js lines 568-570): calls the
accessor with the name only (no options, hence no scramble handling) and
compares the result with `null`. -/
def Cookie.existsFn (reg : Registry) (doc name : JSStr) : Except JsError Bool :=
  match cookieRead reg doc name none with
  | Except.error e => Except.error e
  | Except.ok v => Except.ok v.isSome

/-- Per-code-point output of the whole `encodeValue` pipeline: literal
for unreserved characters and for the five allow-listed characters
`{ } : [ ]` (whose escapes the source restores), percent escapes of the
UTF-8 bytes otherwise. Used to characterize `encodeValue`. -/
def encodeValueChar (c : Char) : JSStr :=
  if uriUnreserved c ∨ c = '{' ∨ c = '}' ∨ c = ':' ∨ c = '[' ∨ c = ']' then [c]
  else (utf8Bytes c.toNat).flatMap pctByte

/-- Token stream produced by `pctTokenize` for one code point of an
`encodeValue` output. Used to characterize the round trip. -/
def pctTokChar (c : Char) : List PctTok :=
  if uriUnreserved c ∨ c = '{' ∨ c = '}' ∨ c = ':' ∨ c = '[' ∨ c = ']' then [PctTok.raw c]
  else (utf8Bytes c.toNat).map PctTok.byte

/-! ### Helper lemmas about characters -/

theorem toNat_ofNat_small (n : Nat) (h : n < 55296) : (Char.ofNat n).toNat = n := by
  have hv : Nat.isValidChar n := Or.inl h
  simp [Char.ofNat, hv, Char.ofNatAux, Char.toNat, UInt32.toNat, BitVec.toNat_ofNatLt]

theorem char_valid_ranges (c : Char) :
    c.toNat < 55296 ∨ (57344 ≤ c.toNat ∧ c.toNat < 1114112) := by
  have := c.valid
  simp [UInt32.isValidChar, Nat.isValidChar, Char.toNat] at this ⊢
  exact this

set_option maxRecDepth 4096 in
theorem rot13_step_small :
    ∀ n, n < 123 → rot13Step (rot13Step (Char.ofNat n)) = Char.ofNat n := by decide

set_option maxRecDepth 4096 in
theorem rot13n_step_small :
    ∀ n, n < 123 →
      rot5Step (rot13Step (rot5Step (rot13Step (Char.ofNat n)))) = Char.ofNat n := by decide

theorem rot13Step_involutive (c : Char) : rot13Step (rot13Step c) = c := by
  by_cases h : asciiLetter c = true
  · have hb : c.toNat < 123 := by
      simp only [asciiLetter, decide_eq_true_eq] at h
      omega
    have := rot13_step_small c.toNat hb
    rwa [Char.ofNat_toNat] at this
  · simp [rot13Step, h]

theorem rot13n_step_involutive (c : Char) :
    rot5Step (rot13Step (rot5Step (rot13Step c))) = c := by
  by_cases hl : asciiLetter c = true
  · have hb : c.toNat < 123 := by
      simp only [asciiLetter, decide_eq_true_eq] at hl
      omega
    have := rot13n_step_small c.toNat hb
    rwa [Char.ofNat_toNat] at this
  · by_cases hd : asciiDigit c = true
    · have hb : c.toNat < 123 := by
        simp only [asciiDigit, decide_eq_true_eq] at hd
        omega
      have := rot13n_step_small c.toNat hb
      rwa [Char.ofNat_toNat] at this
    · simp [rot13Step, rot5Step, hl, hd]

theorem rot13L_involutive (s : JSStr) : rot13L (rot13L s) = s := by
  have h : rot13Step ∘ rot13Step = id := funext rot13Step_involutive
  simp [rot13L, List.map_map, h]

theorem rot13nL_involutive (s : JSStr) : rot5L (rot13L (rot5L (rot13L s))) = s := by
  induction s with
  | nil => rfl
  | cons c cs ih =>
    simp only [rot13L, rot5L, List.map_cons] at ih ⊢
    rw [rot13n_step_involutive c, ih]

/-- C1: each built-in scramble algorithm is an involution and satisfies
the round-trip law `decode (encode x) = x`, with encode and decode being
the same function for each (`rot13` is the letter rotation, `rot13n` the
digit rotation composed with the letter rotation). -/
theorem claim_C1_builtin_round_trip :
    ∃ a13 a13n : Scrambler,
      builtinScramblers (("rot13").data) = some a13 ∧
      builtinScramblers (("rot13n").data) = some a13n ∧
      a13.encode = a13.decode ∧ a13n.encode = a13n.decode ∧
      (∀ x, a13.decode (a13.encode x) = x) ∧
      (∀ x, a13n.decode (a13n.encode x) = x) := by
  refine ⟨Scrambler.mk (fun text => rot13L text) (fun text => rot13L text),
    Scrambler.mk (fun text => rot5L (rot13L text)) (fun text => rot5L (rot13L text)),
    ?_, ?_, rfl, rfl, fun x => rot13L_involutive x, fun x => rot13nL_involutive x⟩
  · unfold builtinScramblers
    rw [if_pos rfl]
  · unfold builtinScramblers
    rw [if_neg (by decide), if_pos rfl]

/-- C5, counterexample: the claim says both rotation primitives accept a
null argument and return the empty string, but `rot5` calls
`str.replace` with no null guard, so `rot5(null)` raises a `TypeError`
instead of returning the empty string. -/
theorem claim_C5_counterexample : ¬(rot5JS none = Except.ok []) := by decide

/-- C5, amended: `rot13` accepts null/absent input as the empty string;
`rot5` raises a `TypeError` on null/absent input but is pure and total on
strings; both are character-wise maps affecting only ASCII letters
(respectively ASCII digits) and passing every other character through
unchanged. -/
theorem claim_C5_amended :
    rot13JS none = [] ∧
    (∀ s, rot13JS (some s) = rot13L s) ∧
    rot5JS none = Except.error JsError.typeError ∧
    (∀ s, rot5JS (some s) = Except.ok (rot5L s)) ∧
    (∀ s, rot13L s = s.map rot13Step) ∧
    (∀ s, rot5L s = s.map rot5Step) ∧
    (∀ c, asciiLetter c = false → rot13Step c = c) ∧
    (∀ c, asciiDigit c = false → rot5Step c = c) := by
  refine ⟨rfl, fun s => rfl, rfl, fun s => rfl, fun s => rfl, fun s => rfl, ?_, ?_⟩
  · intro c h
    simp [rot13Step, h]
  · intro c h
    simp [rot5Step, h]

/-- C5, witness for the amended claim at concrete characters. -/
theorem claim_C5_witness :
    rot13Step '9' = '9' ∧ rot5Step 'q' = 'q' :=
  ⟨claim_C5_amended.2.2.2.2.2.2.1 '9' (by decide),
   claim_C5_amended.2.2.2.2.2.2.2 'q' (by decide)⟩

/-! ### Helper lemmas about the prefix tag codec -/

theorem tagMatch_cons_lbracket (l : JSStr) : tagMatch ('[' :: l) = tagScan l := rfl

theorem tagScan_round (name p : JSStr) (hne : name ≠ [])
    (h : ∀ c ∈ name, ¬c = ']' ∧ lineTerminator c = false) :
    tagScan (name ++ ']' :: p) = some (name, p) := by
  induction name with
  | nil => exact absurd rfl hne
  | cons c rest ih =>
    have hc := h c (by simp)
    rcases rest with _ | ⟨c2, rest2⟩
    · simp only [List.nil_append, List.cons_append, tagScan, hc.2]
      simp
    · have hc2 := h c2 (by simp)
      have ihh := ih (by simp) (fun d hd => h d (by simp [hd]))
      simp only [List.cons_append] at ihh ⊢
      simp [tagScan, hc.2, hc2.1]
      exact ihh

theorem tagMatch_head_ne (c : Char) (rest : JSStr) (hc : ¬c = '[') :
    tagMatch (c :: rest) = none := by
  unfold tagMatch
  split
  · rename_i heq
    injection heq with h1 h2
    exact absurd h1 hc
  · rfl

/-- C4, counterexample: the claim quantifies over every non-empty name
made of characters other than `]`, but the `.` of `/^\[(.+?)\]/` does not
match line terminators, so for the one-character name LF the round trip
fails: `readTag(addTag("\n", "x"))` is the empty string, not `"\n"`. -/
theorem claim_C4_counterexample :
    scramblePrefixGet (scramblePrefixAdd (("\n").data) (("x").data)) ≠ ("\n").data := by
  decide

/-- C4, amended: for every non-empty algorithm name made of characters
other than `]` and other than the line terminators (LF, CR, U+2028,
U+2029), and every payload `p`, `readTag(addTag(name, p)) = name` and
`stripTag(addTag(name, p)) = p`; the capture runs to the first `]`
(non-greedy, `p` is arbitrary and may contain further brackets), and
`readTag` returns the empty string on the empty string and on any value
not starting with `[`. -/
theorem claim_C4_amended (name p : JSStr) (hne : name ≠ [])
    (h : ∀ c ∈ name, ¬c = ']' ∧ lineTerminator c = false) :
    scramblePrefixGet (scramblePrefixAdd name p) = name ∧
    scramblePrefixRemove (scramblePrefixAdd name p) = p ∧
    scramblePrefixGet [] = [] ∧
    (∀ c rest, ¬c = '[' → scramblePrefixGet (c :: rest) = []) := by
  have ht : tagMatch (scramblePrefixAdd name p) = some (name, p) := by
    unfold scramblePrefixAdd
    rw [show (('[' :: name) ++ (']' :: p)) = '[' :: (name ++ ']' :: p) from rfl]
    rw [tagMatch_cons_lbracket]
    exact tagScan_round name p hne h
  have he : name.isEmpty = false := by
    rcases name with _ | _
    · exact absurd rfl hne
    · rfl
  refine ⟨?_, ?_, rfl, ?_⟩
  · unfold scramblePrefixGet
    rw [ht]
    simp [he]
  · unfold scramblePrefixRemove
    rw [ht]
  · intro c rest hc
    unfold scramblePrefixGet
    rw [tagMatch_head_ne c rest hc]

/-- C4, witness for the amended claim at the name `rot13` and a payload
containing a further bracket. -/
theorem claim_C4_witness :
    scramblePrefixGet (scramblePrefixAdd (("rot13").data) (("he]llo").data)) = ("rot13").data ∧
    scramblePrefixRemove (scramblePrefixAdd (("rot13").data) (("he]llo").data)) = ("he]llo").data := by
  have h := claim_C4_amended (("rot13").data) (("he]llo").data) (by decide) (by decide)
  exact ⟨h.1, h.2.1⟩

/-! ### Read-mode and write-mode claims -/

/-- C7, code-bug evaluation: on the stored state `a=uryyb` (an untagged
value) a scramble read raises a `TypeError` at `self.scramblers['rot13']`
(src/cookie.js line 425, `self` being the undefined shadowing local of
lines 279/296) instead of applying the `rot13` backward-compatibility
fallback, which would have returned `hello` (third conjunct). -/
theorem claim_C7_untagged_read_type_error :
    cookieRead builtinScramblers (("a=uryyb").data) (("a").data)
      (some (ScrambleOpt.boolOpt true)) = Except.error JsError.typeError ∧
    ¬(cookieRead builtinScramblers (("a=uryyb").data) (("a").data)
      (some (ScrambleOpt.boolOpt true)) = Except.ok (some (("hello").data))) ∧
    rot13L (("uryyb").data) = ("hello").data := by
  exact ⟨by decide, by decide, by decide⟩

/-- C9: when read mode finds no matching entry, no error is raised and
each public reader returns its absent sentinel — `get` the empty string,
`getJson` the empty object, `exists` false; and `getJson` also returns
the empty object when the stored value does not parse as JSON. -/
theorem claim_C9_missing_entry_sentinels :
    (∀ (parse : JSStr → Option JsValue) (reg : Registry) (doc name : JSStr)
        (scr : Option ScrambleOpt), findCookie doc name = none →
      Cookie.get reg doc name scr = Except.ok [] ∧
      Cookie.getJson parse reg doc name scr = Except.ok (JsValue.objV []) ∧
      Cookie.existsFn reg doc name = Except.ok false) ∧
    (∀ (parse : JSStr → Option JsValue) (reg : Registry) (doc name : JSStr)
        (scr : Option ScrambleOpt) (v : JSStr),
      cookieRead reg doc name scr = Except.ok (some v) → parse v = none →
      Cookie.getJson parse reg doc name scr = Except.ok (JsValue.objV [])) := by
  constructor
  · intro parse reg doc name scr h
    have hr : cookieRead reg doc name scr = Except.ok none := by
      simp [cookieRead, h]
    have hr2 : cookieRead reg doc name none = Except.ok none := by
      simp [cookieRead, h]
    refine ⟨?_, ?_, ?_⟩
    · simp [Cookie.get, hr]
    · simp [Cookie.getJson, hr]
    · simp [Cookie.existsFn, hr2]
  · intro parse reg doc name scr v h hp
    simp [Cookie.getJson, h, hp]

/-- C9, witness: on an empty store all three readers return their
sentinels, and a stored value that fails JSON parsing yields the empty
object. -/
theorem claim_C9_witness :
    Cookie.get builtinScramblers [] (("missing").data) none = Except.ok [] ∧
    Cookie.getJson (fun _ => none) builtinScramblers [] (("missing").data) none =
      Except.ok (JsValue.objV []) ∧
    Cookie.existsFn builtinScramblers [] (("missing").data) = Except.ok false ∧
    Cookie.getJson (fun _ => none) builtinScramblers (("u=notjson").data) (("u").data)
      none = Except.ok (JsValue.objV []) := by
  have h1 := claim_C9_missing_entry_sentinels.1 (fun _ => none) builtinScramblers []
    (("missing").data) none (by decide)
  have h2 := claim_C9_missing_entry_sentinels.2 (fun _ => none) builtinScramblers
    (("u=notjson").data) (("u").data) none (("notjson").data) (by decide) rfl
  exact ⟨h1.1, h1.2.1, h1.2.2, h2⟩

/-- C10, counterexample: the claim says `exists` returns a boolean
without error for every stored state, but the transport decode runs
before any scramble handling, so a stored value that is malformed percent
text (here `%`) makes `exists` propagate a `URIError` instead of
returning a boolean. -/
theorem claim_C10_counterexample :
    Cookie.existsFn builtinScramblers (("a=%").data) (("a").data) =
      Except.error JsError.uriError ∧
    ¬(Cookie.existsFn builtinScramblers (("a=%").data) (("a").data) = Except.ok true) ∧
    ¬(Cookie.existsFn builtinScramblers (("a=%").data) (("a").data) = Except.ok false) := by
  exact ⟨by decide, by decide, by decide⟩

/-- C10, amended: `exists` never applies unscrambling and never raises
the unknown-algorithm error, for any registry state: it returns `false`
when no entry matches and `true` when one matches and transport-decodes
(in particular for any entry tagged with an unregistered algorithm name);
its only error is the `URIError` propagated from transport-decoding a
malformed matched value. -/
theorem claim_C10_amended (reg : Registry) (doc name : JSStr) :
    Cookie.existsFn reg doc name =
      (match findCookie doc name with
       | none => Except.ok false
       | some raw =>
         match decodeValue raw with
         | none => Except.error JsError.uriError
         | some _ => Except.ok true) ∧
    (∀ msg, ¬(Cookie.existsFn reg doc name = Except.error (JsError.thrown msg))) := by
  have key : Cookie.existsFn reg doc name =
      (match findCookie doc name with
       | none => Except.ok false
       | some raw =>
         match decodeValue raw with
         | none => Except.error JsError.uriError
         | some _ => Except.ok true) := by
    unfold Cookie.existsFn cookieRead
    rcases hf : findCookie doc name with _ | raw
    · simp [hf]
    · rcases hd : decodeValue raw with _ | cv
      · simp [hf, hd]
      · simp [hf, hd, scrambleTruthy]
  refine ⟨key, ?_⟩
  intro msg hcontra
  rw [key] at hcontra
  rcases hf : findCookie doc name with _ | raw
  · rw [hf] at hcontra
    simp at hcontra
  · rw [hf] at hcontra
    rcases hd : decodeValue raw with _ | cv
    · simp [hd] at hcontra
    · simp [hd] at hcontra

/-- C10, witness: an entry tagged with an unregistered algorithm does not
make `exists` fail; it reports presence. -/
theorem claim_C10_witness :
    Cookie.existsFn builtinScramblers (("a=[foo]x").data) (("a").data) =
      Except.ok true := by
  have h := (claim_C10_amended builtinScramblers (("a=[foo]x").data) (("a").data)).1
  exact h.trans (by decide)

/-- C6, code-bug evaluation: a write with `scramble: true` (and likewise
with any unregistered non-empty name such as `foo`) raises a `TypeError`
at `self.scramblers[options.scramble]` (src/cookie.js line 314, `self`
being the undefined shadowing local of lines 279/296) and stores
nothing, instead of substituting the default `rot13n` and storing the
tagged encoding, which would have been `[rot13n]Frperg678` (third
conjunct). -/
theorem claim_C6_scramble_write_type_error :
    cookieWrite builtinScramblers scramblerDefault 0 (fun _ => []) (("n").data)
      (some (("Secret123").data))
      (CookieOptions.mk none none none false (some (ScrambleOpt.boolOpt true))) =
      Except.error JsError.typeError ∧
    cookieWrite builtinScramblers scramblerDefault 0 (fun _ => []) (("n").data)
      (some (("Secret123").data))
      (CookieOptions.mk none none none false (some (ScrambleOpt.strOpt (("foo").data)))) =
      Except.error JsError.typeError ∧
    scramblePrefixAdd scramblerDefault (rot5L (rot13L (("Secret123").data))) =
      ("[rot13n]Frperg678").data := by
  exact ⟨by decide, by decide, by decide⟩

/-! ### The transport codec round trip -/

theorem hexDigitChar_ne_pct : ∀ m, m < 16 → ¬hexDigitChar m = '%' := by decide

theorem hexVal_hexDigitChar : ∀ m, m < 16 → hexVal (hexDigitChar m) = some m := by decide

set_option maxRecDepth 8192 in
theorem pct_pair_not_allowed :
    ∀ b, b < 256 → ¬(b = 123 ∨ b = 125 ∨ b = 58 ∨ b = 91 ∨ b = 93) →
      ¬((hexDigitChar (b / 16) = '7' ∧ hexDigitChar (b % 16) = 'B') ∨
        (hexDigitChar (b / 16) = '7' ∧ hexDigitChar (b % 16) = 'D') ∨
        (hexDigitChar (b / 16) = '3' ∧ hexDigitChar (b % 16) = 'A') ∨
        (hexDigitChar (b / 16) = '5' ∧ hexDigitChar (b % 16) = 'B') ∨
        (hexDigitChar (b / 16) = '5' ∧ hexDigitChar (b % 16) = 'D')) := by decide

theorem restoreAllowed_cons_ne (c : Char) (rest : JSStr) (hc : ¬c = '%') :
    restoreAllowed (c :: rest) = c :: restoreAllowed rest := by
  rcases rest with _ | ⟨c1, rest1⟩
  · simp [restoreAllowed, hc]
  · rcases rest1 with _ | ⟨c2, rest2⟩
    · simp [restoreAllowed, hc]
    · simp [restoreAllowed, hc]

theorem restoreAllowed_pct_triple (x y : Char) (t : JSStr)
    (hx : ¬x = '%') (hy : ¬y = '%')
    (hno : ¬((x = '7' ∧ y = 'B') ∨ (x = '7' ∧ y = 'D') ∨ (x = '3' ∧ y = 'A') ∨
      (x = '5' ∧ y = 'B') ∨ (x = '5' ∧ y = 'D'))) :
    restoreAllowed ('%' :: x :: y :: t) = '%' :: x :: y :: restoreAllowed t := by
  have h1 : ¬(x = '7' ∧ y = 'B') := fun h => hno (Or.inl h)
  have h2 : ¬(x = '7' ∧ y = 'D') := fun h => hno (Or.inr (Or.inl h))
  have h3 : ¬(x = '3' ∧ y = 'A') := fun h => hno (Or.inr (Or.inr (Or.inl h)))
  have h4 : ¬(x = '5' ∧ y = 'B') := fun h => hno (Or.inr (Or.inr (Or.inr (Or.inl h))))
  have h5 : ¬(x = '5' ∧ y = 'D') := fun h => hno (Or.inr (Or.inr (Or.inr (Or.inr h))))
  simp only [restoreAllowed, if_pos rfl, if_neg h1, if_neg h2, if_neg h3, if_neg h4,
    if_neg h5]
  simp
  rw [restoreAllowed_cons_ne x _ hx, restoreAllowed_cons_ne y _ hy]

theorem utf8Bytes_bounds (n : Nat) (hn : n < 1114112) :
    ∀ b ∈ utf8Bytes n, b < 256 ∧ (128 ≤ b ∨ b = n) := by
  intro b hb
  unfold utf8Bytes at hb
  by_cases h1 : n < 128
  · rw [if_pos h1] at hb
    simp at hb
    omega
  · rw [if_neg h1] at hb
    by_cases h2 : n < 2048
    · rw [if_pos h2] at hb
      simp [List.mem_cons] at hb
      rcases hb with rfl | rfl <;> constructor <;> omega
    · rw [if_neg h2] at hb
      by_cases h3 : n < 65536
      · rw [if_pos h3] at hb
        simp [List.mem_cons] at hb
        rcases hb with rfl | rfl | rfl <;> constructor <;> omega
      · rw [if_neg h3] at hb
        simp [List.mem_cons] at hb
        rcases hb with rfl | rfl | rfl | rfl <;> constructor <;> omega

theorem restoreAllowed_bytes (bs : List Nat) (t : JSStr)
    (h : ∀ b ∈ bs, b < 256 ∧ ¬(b = 123 ∨ b = 125 ∨ b = 58 ∨ b = 91 ∨ b = 93)) :
    restoreAllowed (bs.flatMap pctByte ++ t) = bs.flatMap pctByte ++ restoreAllowed t := by
  induction bs with
  | nil => simp
  | cons b bs ih =>
    have hb := h b (by simp)
    have h16a : b / 16 < 16 := by omega
    have h16b : b % 16 < 16 := by omega
    simp only [List.flatMap_cons, List.append_assoc, pctByte, List.cons_append,
      List.nil_append]
    rw [restoreAllowed_pct_triple _ _ _ (hexDigitChar_ne_pct _ h16a)
      (hexDigitChar_ne_pct _ h16b) (pct_pair_not_allowed b hb.1 hb.2)]
    rw [ih (fun x hx => h x (by simp [hx]))]

theorem encodeValue_char_chunks (s : JSStr) :
    encodeValue s = s.flatMap encodeValueChar := by
  unfold encodeValue encodeURIComponentL
  induction s with
  | nil => rfl
  | cons c cs ih =>
    simp only [List.flatMap_cons]
    by_cases hu : uriUnreserved c = true
    · have hc : ¬c = '%' := by
        intro h
        rw [h] at hu
        exact absurd hu (by decide)
      rw [show encodeURIComponentChar c = [c] from by simp [encodeURIComponentChar, hu]]
      rw [show encodeValueChar c = [c] from by simp [encodeValueChar, hu]]
      simp only [List.cons_append, List.nil_append]
      rw [restoreAllowed_cons_ne c _ hc, ih]
    · by_cases ha : c = '{' ∨ c = '}' ∨ c = ':' ∨ c = '[' ∨ c = ']'
      · rcases ha with rfl | rfl | rfl | rfl | rfl
        · rw [show encodeURIComponentChar '{' = '%' :: '7' :: 'B' :: [] from by decide,
            show encodeValueChar '{' = ['{'] from by decide]
          simp only [List.cons_append, List.nil_append]
          rw [show restoreAllowed ('%' :: '7' :: 'B' :: (cs.flatMap encodeURIComponentChar)) =
            '{' :: restoreAllowed (cs.flatMap encodeURIComponentChar) from by
              simp [restoreAllowed]]
          rw [ih]
        · rw [show encodeURIComponentChar '}' = '%' :: '7' :: 'D' :: [] from by decide,
            show encodeValueChar '}' = ['}'] from by decide]
          simp only [List.cons_append, List.nil_append]
          rw [show restoreAllowed ('%' :: '7' :: 'D' :: (cs.flatMap encodeURIComponentChar)) =
            '}' :: restoreAllowed (cs.flatMap encodeURIComponentChar) from by
              simp [restoreAllowed]]
          rw [ih]
        · rw [show encodeURIComponentChar ':' = '%' :: '3' :: 'A' :: [] from by decide,
            show encodeValueChar ':' = [':'] from by decide]
          simp only [List.cons_append, List.nil_append]
          rw [show restoreAllowed ('%' :: '3' :: 'A' :: (cs.flatMap encodeURIComponentChar)) =
            ':' :: restoreAllowed (cs.flatMap encodeURIComponentChar) from by
              simp [restoreAllowed]]
          rw [ih]
        · rw [show encodeURIComponentChar '[' = '%' :: '5' :: 'B' :: [] from by decide,
            show encodeValueChar '[' = ['['] from by decide]
          simp only [List.cons_append, List.nil_append]
          rw [show restoreAllowed ('%' :: '5' :: 'B' :: (cs.flatMap encodeURIComponentChar)) =
            '[' :: restoreAllowed (cs.flatMap encodeURIComponentChar) from by
              simp [restoreAllowed]]
          rw [ih]
        · rw [show encodeURIComponentChar ']' = '%' :: '5' :: 'D' :: [] from by decide,
            show encodeValueChar ']' = [']'] from by decide]
          simp only [List.cons_append, List.nil_append]
          rw [show restoreAllowed ('%' :: '5' :: 'D' :: (cs.flatMap encodeURIComponentChar)) =
            ']' :: restoreAllowed (cs.flatMap encodeURIComponentChar) from by
              simp [restoreAllowed]]
          rw [ih]
      · have hval := char_valid_ranges c
        have hn123 : ¬(c.toNat = 123 ∨ c.toNat = 125 ∨ c.toNat = 58 ∨ c.toNat = 91 ∨
            c.toNat = 93) := by
          intro h
          have hofn := Char.ofNat_toNat c
          apply ha
          rcases h with h | h | h | h | h
          · left
            rw [h] at hofn
            rw [← hofn]
          · right; left
            rw [h] at hofn
            rw [← hofn]
          · right; right; left
            rw [h] at hofn
            rw [← hofn]
          · right; right; right; left
            rw [h] at hofn
            rw [← hofn]
          · right; right; right; right
            rw [h] at hofn
            rw [← hofn]
        rw [show encodeURIComponentChar c = (utf8Bytes c.toNat).flatMap pctByte from by
          simp [encodeURIComponentChar, hu]]
        rw [show encodeValueChar c = (utf8Bytes c.toNat).flatMap pctByte from by
          simp only [encodeValueChar]
          rw [if_neg (by
            intro hcon
            rcases hcon with hcon | hcon | hcon | hcon | hcon | hcon
            · exact hu hcon
            all_goals exact ha (by simp [hcon]))]]
        rw [restoreAllowed_bytes _ _ ?safe, ih]
        case safe =>
          intro b hb
          obtain ⟨hb1, hb2⟩ := utf8Bytes_bounds c.toNat (by omega) b hb
          refine ⟨hb1, ?_⟩
          rcases hb2 with h128 | rfl
          · omega
          · exact hn123

theorem pctTokenize_cons_ne (c : Char) (t : JSStr) (hc : ¬c = '%') :
    pctTokenize (c :: t) = (pctTokenize t).map fun ts => PctTok.raw c :: ts := by
  rcases t with _ | ⟨c1, t1⟩
  · simp [pctTokenize, hc]
  · rcases t1 with _ | ⟨c2, t2⟩
    · simp [pctTokenize, hc]
    · simp [pctTokenize, hc]

theorem pctTokenize_pct (b : Nat) (t : JSStr) (hb : b < 256) :
    pctTokenize (pctByte b ++ t) = (pctTokenize t).map fun ts => PctTok.byte b :: ts := by
  have h1 : b / 16 < 16 := by omega
  have h2 : b % 16 < 16 := by omega
  have harith : 16 * (b / 16) + b % 16 = b := by omega
  simp only [pctByte, List.cons_append, List.nil_append]
  simp [pctTokenize, hexVal_hexDigitChar _ h1, hexVal_hexDigitChar _ h2, harith]

theorem pctTokenize_bytes (bs : List Nat) (t : JSStr) (h : ∀ b ∈ bs, b < 256) :
    pctTokenize (bs.flatMap pctByte ++ t) =
      (pctTokenize t).map fun ts => bs.map PctTok.byte ++ ts := by
  induction bs with
  | nil =>
    simp
  | cons b bs ih =>
    simp only [List.flatMap_cons, List.append_assoc]
    rw [pctTokenize_pct b _ (h b (by simp)), ih (fun x hx => h x (by simp [hx]))]
    cases pctTokenize t <;> simp

theorem pctTokenize_chunk (c : Char) (t : JSStr) :
    pctTokenize (encodeValueChar c ++ t) =
      (pctTokenize t).map fun ts => pctTokChar c ++ ts := by
  by_cases hs : uriUnreserved c = true ∨ c = '{' ∨ c = '}' ∨ c = ':' ∨ c = '[' ∨ c = ']'
  · have hc : ¬c = '%' := by
      intro h
      subst h
      rcases hs with h | h | h | h | h | h <;> exact absurd h (by decide)
    simp only [encodeValueChar, pctTokChar, if_pos hs, List.cons_append, List.nil_append]
    rw [pctTokenize_cons_ne c t hc]
  · simp only [encodeValueChar, pctTokChar, if_neg hs]
    have hval := char_valid_ranges c
    exact pctTokenize_bytes _ t fun b hb =>
      (utf8Bytes_bounds c.toNat (by omega) b hb).1

theorem decodeTokens_raw (c : Char) (ts : List PctTok) :
    decodeTokens (PctTok.raw c :: ts) = (decodeTokens ts).map fun s => c :: s := rfl


theorem decodeTokensF_irrel :
    ∀ fuel fuel2 (ts : List PctTok), ts.length ≤ fuel → ts.length ≤ fuel2 →
      decodeTokensF fuel ts = decodeTokensF fuel2 ts := by
  intro fuel
  induction fuel with
  | zero =>
    intro fuel2 ts h1 h2
    rcases ts with _ | ⟨tok, rest⟩
    · cases fuel2 <;> rfl
    · simp at h1
  | succ fuel ih =>
    intro fuel2 ts h1 h2
    rcases ts with _ | ⟨tok, rest⟩
    · cases fuel2 <;> rfl
    · rcases fuel2 with _ | fuel2
      · simp at h2
      · rcases tok with c | b
        · simp only [decodeTokensF]
          rw [ih fuel2 rest (by simp at h1; omega) (by simp at h2; omega)]
        · simp only [decodeTokensF]
          by_cases hb : b < 128
          · rw [if_pos hb, if_pos hb,
              ih fuel2 rest (by simp at h1; omega) (by simp at h2; omega)]
          · rw [if_neg hb, if_neg hb]
            rcases hm : decodeMulti b rest with _ | pr
            · rfl
            · dsimp only
              rw [ih fuel2 (rest.drop pr.2)
                (by simp [List.length_drop] at h1 ⊢; omega)
                (by simp [List.length_drop] at h2 ⊢; omega)]

theorem decodeTokensF_byte_multi (fuel b : Nat) (rest : List PctTok) (hb : ¬b < 128)
    (pr : Nat × Nat) (hm : decodeMulti b rest = some pr) :
    decodeTokensF (fuel + 1) (PctTok.byte b :: rest) =
      (decodeTokensF fuel (rest.drop pr.2)).map fun s => Char.ofNat pr.1 :: s := by
  simp only [decodeTokensF]
  rw [if_neg hb, hm]

theorem decodeTokens_byte_ascii (b : Nat) (ts : List PctTok) (h : b < 128) :
    decodeTokens (PctTok.byte b :: ts) =
      (decodeTokens ts).map fun s => Char.ofNat b :: s := by
  simp only [decodeTokens, List.length_cons, decodeTokensF]
  rw [if_pos h]

theorem decodeMulti_two (b b2 : Nat) (ts : List PctTok)
    (hb1 : 192 ≤ b) (hb2 : b < 224) (hc1 : 128 ≤ b2) (hc2 : b2 ≤ 191)
    (hv : ¬((b - 192) * 64 + (b2 - 128) < 128)) :
    decodeMulti b (PctTok.byte b2 :: ts) = some ((b - 192) * 64 + (b2 - 128), 1) := by
  have hcb : contByte b2 = true := by
    simp [contByte]
    omega
  simp only [decodeMulti]
  rw [if_neg (by omega), if_pos hb2]
  simp [contAt, hcb, hv]

theorem decodeMulti_three (b b2 b3 : Nat) (ts : List PctTok)
    (hb1 : 224 ≤ b) (hb2 : b < 240) (hc1 : 128 ≤ b2) (hc2 : b2 ≤ 191)
    (hd1 : 128 ≤ b3) (hd2 : b3 ≤ 191)
    (hv : ¬((b - 224) * 4096 + (b2 - 128) * 64 + (b3 - 128) < 2048 ∨
      (55296 ≤ (b - 224) * 4096 + (b2 - 128) * 64 + (b3 - 128) ∧
        (b - 224) * 4096 + (b2 - 128) * 64 + (b3 - 128) ≤ 57343))) :
    decodeMulti b (PctTok.byte b2 :: PctTok.byte b3 :: ts) =
      some ((b - 224) * 4096 + (b2 - 128) * 64 + (b3 - 128), 2) := by
  have hcb2 : contByte b2 = true := by
    simp [contByte]
    omega
  have hcb3 : contByte b3 = true := by
    simp [contByte]
    omega
  simp only [decodeMulti]
  rw [if_neg (by omega), if_neg (by omega), if_pos hb2]
  simp [contAt, hcb2, hcb3, hv]

theorem decodeMulti_four (b b2 b3 b4 : Nat) (ts : List PctTok)
    (hb1 : 240 ≤ b) (hb2 : b < 248) (hc1 : 128 ≤ b2) (hc2 : b2 ≤ 191)
    (hd1 : 128 ≤ b3) (hd2 : b3 ≤ 191) (he1 : 128 ≤ b4) (he2 : b4 ≤ 191)
    (hv : ¬((b - 240) * 262144 + (b2 - 128) * 4096 + (b3 - 128) * 64 + (b4 - 128) < 65536 ∨
      1114111 < (b - 240) * 262144 + (b2 - 128) * 4096 + (b3 - 128) * 64 + (b4 - 128))) :
    decodeMulti b (PctTok.byte b2 :: PctTok.byte b3 :: PctTok.byte b4 :: ts) =
      some ((b - 240) * 262144 + (b2 - 128) * 4096 + (b3 - 128) * 64 + (b4 - 128), 3) := by
  have hcb2 : contByte b2 = true := by
    simp [contByte]
    omega
  have hcb3 : contByte b3 = true := by
    simp [contByte]
    omega
  have hcb4 : contByte b4 = true := by
    simp [contByte]
    omega
  simp only [decodeMulti]
  rw [if_neg (by omega), if_neg (by omega), if_neg (by omega), if_pos hb2]
  simp [contAt, hcb2, hcb3, hcb4, hv]

theorem decodeTokens_byte2 (b b2 : Nat) (ts : List PctTok)
    (hb1 : 192 ≤ b) (hb2 : b < 224) (hc1 : 128 ≤ b2) (hc2 : b2 ≤ 191)
    (hv : ¬((b - 192) * 64 + (b2 - 128) < 128)) :
    decodeTokens (PctTok.byte b :: PctTok.byte b2 :: ts) =
      (decodeTokens ts).map fun s => Char.ofNat ((b - 192) * 64 + (b2 - 128)) :: s := by
  have hm := decodeMulti_two b b2 ts hb1 hb2 hc1 hc2 hv
  simp only [decodeTokens, List.length_cons]
  rw [decodeTokensF_byte_multi (ts.length + 1) b _ (by omega) _ hm]
  simp only [List.drop_succ_cons, List.drop_zero]
  rw [decodeTokensF_irrel (ts.length + 1) ts.length ts (by omega) (by omega)]

theorem decodeTokens_byte3 (b b2 b3 : Nat) (ts : List PctTok)
    (hb1 : 224 ≤ b) (hb2 : b < 240) (hc1 : 128 ≤ b2) (hc2 : b2 ≤ 191)
    (hd1 : 128 ≤ b3) (hd2 : b3 ≤ 191)
    (hv : ¬((b - 224) * 4096 + (b2 - 128) * 64 + (b3 - 128) < 2048 ∨
      (55296 ≤ (b - 224) * 4096 + (b2 - 128) * 64 + (b3 - 128) ∧
        (b - 224) * 4096 + (b2 - 128) * 64 + (b3 - 128) ≤ 57343))) :
    decodeTokens (PctTok.byte b :: PctTok.byte b2 :: PctTok.byte b3 :: ts) =
      (decodeTokens ts).map fun s =>
        Char.ofNat ((b - 224) * 4096 + (b2 - 128) * 64 + (b3 - 128)) :: s := by
  have hm := decodeMulti_three b b2 b3 ts hb1 hb2 hc1 hc2 hd1 hd2 hv
  simp only [decodeTokens, List.length_cons]
  rw [decodeTokensF_byte_multi (ts.length + 1 + 1) b _ (by omega) _ hm]
  simp only [List.drop_succ_cons, List.drop_zero]
  rw [decodeTokensF_irrel (ts.length + 1 + 1) ts.length ts (by omega) (by omega)]

theorem decodeTokens_byte4 (b b2 b3 b4 : Nat) (ts : List PctTok)
    (hb1 : 240 ≤ b) (hb2 : b < 248) (hc1 : 128 ≤ b2) (hc2 : b2 ≤ 191)
    (hd1 : 128 ≤ b3) (hd2 : b3 ≤ 191) (he1 : 128 ≤ b4) (he2 : b4 ≤ 191)
    (hv : ¬((b - 240) * 262144 + (b2 - 128) * 4096 + (b3 - 128) * 64 + (b4 - 128) < 65536 ∨
      1114111 < (b - 240) * 262144 + (b2 - 128) * 4096 + (b3 - 128) * 64 + (b4 - 128))) :
    decodeTokens (PctTok.byte b :: PctTok.byte b2 :: PctTok.byte b3 :: PctTok.byte b4 :: ts) =
      (decodeTokens ts).map fun s =>
        Char.ofNat ((b - 240) * 262144 + (b2 - 128) * 4096 + (b3 - 128) * 64 + (b4 - 128)) :: s := by
  have hm := decodeMulti_four b b2 b3 b4 ts hb1 hb2 hc1 hc2 hd1 hd2 he1 he2 hv
  simp only [decodeTokens, List.length_cons]
  rw [decodeTokensF_byte_multi (ts.length + 1 + 1 + 1) b _ (by omega) _ hm]
  simp only [List.drop_succ_cons, List.drop_zero]
  rw [decodeTokensF_irrel (ts.length + 1 + 1 + 1) ts.length ts (by omega) (by omega)]

theorem decodeTokens_chunk (c : Char) (ts : List PctTok) :
    decodeTokens (pctTokChar c ++ ts) = (decodeTokens ts).map fun s => c :: s := by
  by_cases hs : uriUnreserved c = true ∨ c = '{' ∨ c = '}' ∨ c = ':' ∨ c = '[' ∨ c = ']'
  · simp only [pctTokChar, if_pos hs, List.cons_append, List.nil_append]
    exact decodeTokens_raw c ts
  · simp only [pctTokChar, if_neg hs]
    have hval := char_valid_ranges c
    by_cases h1 : c.toNat < 128
    · rw [show utf8Bytes c.toNat = [c.toNat] from by
        unfold utf8Bytes
        rw [if_pos h1]]
      simp only [List.map_cons, List.map_nil, List.cons_append, List.nil_append]
      rw [decodeTokens_byte_ascii _ _ h1]
      simp only [Char.ofNat_toNat]
    · by_cases h2 : c.toNat < 2048
      · rw [show utf8Bytes c.toNat = [192 + c.toNat / 64, 128 + c.toNat % 64] from by
          unfold utf8Bytes
          rw [if_neg h1, if_pos h2]]
        simp only [List.map_cons, List.map_nil, List.cons_append, List.nil_append]
        rw [decodeTokens_byte2 _ _ _ (by omega) (by omega) (by omega) (by omega) (by omega)]
        simp only [show (192 + c.toNat / 64 - 192) * 64 + (128 + c.toNat % 64 - 128) =
          c.toNat from by omega, Char.ofNat_toNat]
      · by_cases h3 : c.toNat < 65536
        · rw [show utf8Bytes c.toNat =
            [224 + c.toNat / 4096, 128 + (c.toNat / 64) % 64, 128 + c.toNat % 64] from by
              unfold utf8Bytes
              rw [if_neg h1, if_neg h2, if_pos h3]]
          simp only [List.map_cons, List.map_nil, List.cons_append, List.nil_append]
          rw [decodeTokens_byte3 _ _ _ _ (by omega) (by omega) (by omega) (by omega)
            (by omega) (by omega) (by omega)]
          simp only [show (224 + c.toNat / 4096 - 224) * 4096 +
            (128 + (c.toNat / 64) % 64 - 128) * 64 + (128 + c.toNat % 64 - 128) =
            c.toNat from by omega, Char.ofNat_toNat]
        · rw [show utf8Bytes c.toNat =
            [240 + c.toNat / 262144, 128 + (c.toNat / 4096) % 64,
              128 + (c.toNat / 64) % 64, 128 + c.toNat % 64] from by
              unfold utf8Bytes
              rw [if_neg h1, if_neg h2, if_neg h3]]
          simp only [List.map_cons, List.map_nil, List.cons_append, List.nil_append]
          rw [decodeTokens_byte4 _ _ _ _ _ (by omega) (by omega) (by omega) (by omega)
            (by omega) (by omega) (by omega) (by omega) (by omega)]
          simp only [show (240 + c.toNat / 262144 - 240) * 262144 +
            (128 + (c.toNat / 4096) % 64 - 128) * 4096 +
            (128 + (c.toNat / 64) % 64 - 128) * 64 + (128 + c.toNat % 64 - 128) =
            c.toNat from by omega, Char.ofNat_toNat]

theorem decodeValue_encodeValue (s : JSStr) : decodeValue (encodeValue s) = some s := by
  rw [encodeValue_char_chunks]
  unfold decodeValue decodeURIComponentL
  induction s with
  | nil => rfl
  | cons c cs ih =>
    simp only [List.flatMap_cons]
    rw [pctTokenize_chunk]
    rcases hp : pctTokenize (cs.flatMap encodeValueChar) with _ | ts
    · rw [hp] at ih
      simp at ih
    · rw [hp] at ih
      simp only [Option.map_some'] at ih ⊢
      rw [decodeTokens_chunk, ih]
      rfl

/-- C3: for every string x with no literal channel-reserved separator
characters (comma, semicolon, equals, whitespace),
`decodeValue (encodeValue x) = x`: `encodeValue` percent-encodes and
selectively restores the literals `{ } : [ ]`, and `decodeValue` is a
full percent-decode. -/
theorem claim_C3_transport_round_trip (x : JSStr)
    (h : ∀ c ∈ x, ¬(c = ',' ∨ c = ';' ∨ c = '=' ∨ trimChar c = true)) :
    decodeValue (encodeValue x) = some x :=
  decodeValue_encodeValue x

/-- C3, witness at a JSON-shaped value. -/
theorem claim_C3_witness :
    decodeValue (encodeValue (("{a:1}").data)) = some (("{a:1}").data) :=
  claim_C3_transport_round_trip (("{a:1}").data) (by decide)

theorem uriUnreserved_not_special (c : Char) (h : uriUnreserved c = true) :
    ¬(c = ',' ∨ c = ';' ∨ c = '=' ∨ trimChar c = true) := by
  intro hc
  rcases hc with rfl | rfl | rfl | htrim
  · exact absurd h (by decide)
  · exact absurd h (by decide)
  · exact absurd h (by decide)
  · simp only [uriUnreserved, decide_eq_true_eq] at h
    simp only [trimChar, decide_eq_true_eq] at htrim
    omega

theorem hexDigit_not_special :
    ∀ m, m < 16 → ¬(hexDigitChar m = ',' ∨ hexDigitChar m = ';' ∨ hexDigitChar m = '=' ∨
      trimChar (hexDigitChar m) = true) := by decide

/-- C8: for every input string, `encodeValue` produces none of the
channel-forbidden characters (comma, semicolon, equals, whitespace); the
only escapes it selectively restores to literals are `{ } : [ ]`, none of
which is forbidden. -/
theorem claim_C8_channel_safe :
    (∀ x c, c ∈ encodeValue x → ¬(c = ',' ∨ c = ';' ∨ c = '=' ∨ trimChar c = true)) ∧
    (∀ c, c = '{' ∨ c = '}' ∨ c = ':' ∨ c = '[' ∨ c = ']' →
      ¬(c = ',' ∨ c = ';' ∨ c = '=' ∨ trimChar c = true)) := by
  constructor
  · intro x c hc
    rw [encodeValue_char_chunks, List.mem_flatMap] at hc
    obtain ⟨a, ha, hca⟩ := hc
    by_cases hs : uriUnreserved a = true ∨ a = '{' ∨ a = '}' ∨ a = ':' ∨ a = '[' ∨ a = ']'
    · rw [encodeValueChar, if_pos hs] at hca
      simp at hca
      subst hca
      rcases hs with hu | rfl | rfl | rfl | rfl | rfl
      · exact uriUnreserved_not_special _ hu
      · decide
      · decide
      · decide
      · decide
      · decide
    · rw [encodeValueChar, if_neg hs] at hca
      rw [List.mem_flatMap] at hca
      obtain ⟨b, hb, hcb⟩ := hca
      have hval := char_valid_ranges a
      obtain ⟨hb256, _⟩ := utf8Bytes_bounds a.toNat (by omega) b hb
      simp only [pctByte, List.mem_cons, List.not_mem_nil, or_false] at hcb
      rcases hcb with rfl | rfl | rfl
      · decide
      · exact hexDigit_not_special _ (by omega)
      · exact hexDigit_not_special _ (by omega)
  · intro c h
    rcases h with rfl | rfl | rfl | rfl | rfl <;> decide

/-- C8, witness: a character of an encoded output is not forbidden. -/
theorem claim_C8_witness :
    ¬('a' = ',' ∨ 'a' = ';' ∨ 'a' = '=' ∨ trimChar 'a' = true) :=
  claim_C8_channel_safe.1 (("a b").data) 'a' (by decide)
